import Mathlib

/-!
Verification of the brema-simulator scoring core.

The Python sources `wap_calculator.py` and `main_simulator.py` are embedded
shallowly:

* numeric values (base times, achieved times, points) are modelled as exact
  rationals `ℚ`;
* the parsed XML reference table is modelled as a tree of plain structures
  mirroring the `course / gender / event` hierarchy the code queries;
* a CSV row handed out by `csv.DictReader` is modelled as a record of
  `Option String` fields (`none` models an absent column, i.e. a Python
  `KeyError` on access);
* Python exceptions caught by the batch loop are modelled with
  `Except String`.
-/

namespace Brema

/-- Model of Python `str.strip()`: remove leading and trailing whitespace
(over the whitespace characters of `Char.isWhitespace`). -/
def pyStrip (s : String) : String :=
  String.mk (((s.data.dropWhile Char.isWhitespace).reverse.dropWhile
    Char.isWhitespace).reverse)

/-- Model of Python `str.upper()` for the basic-latin letters handled by
`Char.toUpper` (the reference keys only use ASCII). -/
def pyUpper (s : String) : String :=
  String.mk (s.data.map Char.toUpper)

/-- Model of Python `str.capitalize()`: first character uppercased, the rest
lowercased (basic-latin letters). -/
def pyCapitalize (s : String) : String :=
  match s.data with
  | [] => ""
  | c :: cs => String.mk (c.toUpper :: cs.map Char.toLower)

/-- An `<event>` node: a `stroke` text child and an optional
`basetime_seconds` child (`none` models a missing child; a present child is
modelled together with the `float(...)` conversion of its text). -/
structure Event where
  stroke : String
  basetime_seconds : Option ℚ
deriving DecidableEq

/-- A `<gender name=...>` node. -/
structure GenderNode where
  name : String
  events : List Event
deriving DecidableEq

/-- A `<course type=...>` node. -/
structure CourseNode where
  typ : String
  genders : List GenderNode
deriving DecidableEq

/-- The root of the parsed reference-table document. -/
structure XmlRoot where
  courses : List CourseNode
deriving DecidableEq

/-- Embedding of `find_basetime` (`wap_calculator.py`, lines 5-29).

The ElementTree query
`./course[@type=COURSE.upper()]/gender[@name=GENDER.capitalize()]/event[stroke=STROKE]`
selects, in document order, every event in a matching course and matching
gender whose `stroke` child text is exactly `stroke`; `root.find` takes the
first such node, whose optional `basetime_seconds` child is then read.
Returns `none` ("not found") when no event matches or the first matching
event has no `basetime_seconds` child. -/
def find_basetime (root : XmlRoot) (course gender stroke : String) : Option ℚ :=
  match (root.courses.filter (fun c => c.typ = pyUpper course)).flatMap
      (fun c => (c.genders.filter (fun g => g.name = pyCapitalize gender)).flatMap
        (fun g => g.events.filter (fun e => e.stroke = stroke))) with
  | [] => none
  | e :: _ => e.basetime_seconds

/-- Embedding of `calculate_points` (`wap_calculator.py`, lines 32-49):
`1000 * (basetime / input_time) ** 3`, clamped to `0.0` when
`input_time <= 0`. -/
def calculate_points (basetime input_time : ℚ) : ℚ :=
  if input_time ≤ 0 then 0
  else 1000 * (basetime / input_time) ^ 3

/-- Round a rational to the nearest integer, ties to even: the rounding mode
Python uses when formatting a value with `%.2f` / `{:05.2f}` (applied here to
the exact value, which the `ℚ` model carries). -/
def roundHalfEven (q : ℚ) : ℤ :=
  if q - ⌊q⌋ < 1/2 then ⌊q⌋
  else if 1/2 < q - ⌊q⌋ then ⌊q⌋ + 1
  else if 2 ∣ ⌊q⌋ then ⌊q⌋ else ⌊q⌋ + 1

/-- Zero-pad a natural number to at least two decimal digits: Python
`{:02d}` (numbers of three or more digits are printed in full). -/
def pad2 (n : ℕ) : String :=
  if n < 10 then "0" ++ toString n else toString n

/-- Python `{:05.2f}` applied to a non-negative value below 100: the value
rounded to centiseconds, printed with two fractional digits and zero-padded
to width 5. -/
def fmt052 (q : ℚ) : String :=
  pad2 ((roundHalfEven (100 * q)).toNat / 100) ++ "." ++
    pad2 ((roundHalfEven (100 * q)).toNat % 100)

/-- Embedding of `format_time` (`wap_calculator.py`, lines 52-60): negative input yields
the literal `"00:00.00"`; otherwise `minutes = int(seconds // 60)` and
`remaining = seconds % 60` are rendered as `{minutes:02d}:{remaining:05.2f}`. -/
def format_time (seconds : ℚ) : String :=
  if seconds < 0 then "00:00.00"
  else pad2 (⌊seconds / 60⌋).toNat ++ ":" ++ fmt052 (seconds - 60 * ⌊seconds / 60⌋)

/-- Numeric value of a list of decimal digit characters. -/
def digitsVal (l : List Char) : ℕ :=
  l.foldl (fun a c => 10 * a + (c.toNat - 48)) 0

/-- Model of Python `float(str)` on its plain decimal forms: optional
surrounding whitespace, an optional sign, then digits with an optional
fractional part (at least one digit overall). Returns `none` when the string
does not parse (Python raises `ValueError`). Exponent, `inf`/`nan` and
digit-underscore forms are outside the model. -/
def pyFloat (s : String) : Option ℚ :=
  let cs := (pyStrip s).data
  let body := fun (sgn : ℚ) (cs2 : List Char) =>
    let ip := cs2.takeWhile Char.isDigit
    match cs2.dropWhile Char.isDigit with
    | [] => if ip = [] then none else some (sgn * digitsVal ip)
    | '.' :: fp =>
      if fp.all Char.isDigit ∧ (ip ≠ [] ∨ fp ≠ []) then
        some (sgn * (digitsVal ip + digitsVal fp / 10 ^ fp.length))
      else none
    | _ => none
  match cs with
  | [] => none
  | '-' :: r => body (-1) r
  | '+' :: r => body 1 r
  | r => body 1 r

/-- One CSV row as produced by `csv.DictReader`: a mapping from the six
field names to string values; `none` models a field absent from the header
(accessing it raises `KeyError`). -/
structure Row where
  name : Option String
  surname : Option String
  course : Option String
  gender : Option String
  stroke : Option String
  time : Option String
deriving DecidableEq

/-- One entry of `processed_results` (`main_simulator.py`, lines 156-162). -/
structure ScoredResult where
  name : String
  surname : String
  stroke : String
  time : String
  points : ℚ
deriving DecidableEq

/-- The body of the batch loop (`main_simulator.py`, lines 138-162) for one
row: field accesses in source order (a missing field raises `KeyError`,
modelled by the error carrying the field name; Python renders it quoted),
`float` parsing, the name/surname emptiness check, the base-time lookup, and
finally the scored result. `Except.error` carries the exception text used in
the rejection message. -/
def process_row (root : XmlRoot) (row : Row) : Except String ScoredResult :=
  match row.name with
  | none => .error "name"
  | some name0 =>
  match row.surname with
  | none => .error "surname"
  | some surname0 =>
  match row.course with
  | none => .error "course"
  | some course =>
  match row.gender with
  | none => .error "gender"
  | some gender =>
  match row.stroke with
  | none => .error "stroke"
  | some stroke =>
  match row.time with
  | none => .error "time"
  | some timeStr =>
  match pyFloat timeStr with
  | none => .error ("could not convert string to float: " ++ timeStr)
  | some time =>
  if pyStrip name0 = "" ∨ pyStrip surname0 = "" then
    .error "Name or surname is missing"
  else
    match find_basetime root course gender stroke with
    | none => .error "Base time not found for event."
    | some basetime =>
      .ok ⟨pyStrip name0, pyStrip surname0, stroke,
        format_time time, calculate_points basetime time⟩

/-- The rejection message appended to `failed_rows`
(`main_simulator.py`, line 165): `f"Row {row_num}: Invalid data - {e} ..."`
(the trailing interpolation of the raw row dict is presentation only and is
omitted from the model). -/
def mk_fail (row_num : ℕ) (e : String) : String :=
  "Row " ++ toString row_num ++ ": Invalid data - " ++ e

/-- The three accumulators of the batch loop
(`main_simulator.py`, lines 130-132). -/
structure BatchOut where
  results : List ScoredResult
  total : ℚ
  failed : List String
deriving DecidableEq

/-- One iteration of `for row_num, row in enumerate(reader, 2)`
(`main_simulator.py`, lines 137-166): on success append the scored result
and add its points to the running total; on a caught exception append a
rejection message and continue. -/
def batch_step (root : XmlRoot) (acc : BatchOut) (nr : ℕ × Row) : BatchOut :=
  match process_row root nr.2 with
  | .ok res => ⟨acc.results ++ [res], acc.total + res.points, acc.failed⟩
  | .error e => ⟨acc.results, acc.total, acc.failed ++ [mk_fail nr.1 e]⟩

/-- The whole batch loop: rows are numbered from 2 (`enumerate(reader, 2)`,
accounting for the header line) and folded through `batch_step` starting
from empty accumulators. -/
def run_batch (root : XmlRoot) (rows : List Row) : BatchOut :=
  (rows.enumFrom 2).foldl (batch_step root) ⟨[], 0, []⟩

/-- The scored result a row contributes, if any. -/
def okResult (root : XmlRoot) (r : Row) : Option ScoredResult :=
  match process_row root r with
  | .ok res => some res
  | .error _ => none

/-- The rejection message a numbered row contributes, if any. -/
def failEntry (root : XmlRoot) (nr : ℕ × Row) : Option String :=
  match process_row root nr.2 with
  | .ok _ => none
  | .error e => some (mk_fail nr.1 e)




/-! ## Specification views of the reference table and sample data -/

/-- The node list selected by the ElementTree query of `find_basetime`, in
document order (the query result named; `find_basetime` reduces to the head
of this list definitionally). -/
def lookupMatches (root : XmlRoot) (course gender stroke : String) :
    List Event :=
  (root.courses.filter (fun c => c.typ = pyUpper course)).flatMap
    (fun c => (c.genders.filter (fun g => g.name = pyCapitalize gender)).flatMap
      (fun g => g.events.filter (fun e => e.stroke = stroke)))

/-- Every `(course type, gender name, event)` occurrence of the table, in
document order. -/
def allEvents (root : XmlRoot) : List (String × String × Event) :=
  root.courses.flatMap fun c =>
    c.genders.flatMap fun g => g.events.map fun e => (c.typ, g.name, e)

/-- The `(course, gender, stroke)` key of every event occurrence. -/
def eventKeys (root : XmlRoot) : List (String × String × String) :=
  (allEvents root).map fun t => (t.1, t.2.1, t.2.2.stroke)

/-- The reference table as a flat relation: one
`(course, gender, stroke, base time)` tuple per event that carries a
`basetime_seconds` child. -/
def entries (root : XmlRoot) : List (String × String × String × ℚ) :=
  (allEvents root).filterMap fun t =>
    t.2.2.basetime_seconds.map fun v => (t.1, t.2.1, t.2.2.stroke, v)

/-- The invariant of the Reference Table (spec section 3): at most one base
time per `(course, gender, stroke)` triple, and every event holds a base
time. -/
def WellFormed (root : XmlRoot) : Prop :=
  (eventKeys root).Nodup ∧
    ∀ t ∈ allEvents root, (t.2.2.basetime_seconds).isSome = true

/-- The `mm:ss.cc` shape claimed for `format_time` at input `s`: the output
splits as a two-digit zero-padded minutes field holding `⌊s / 60⌋`, a colon,
and the remainder `s - 60 * ⌊s / 60⌋` rounded to centiseconds and rendered
as two two-digit fields. -/
def MMSSCC (s : ℚ) (out : String) : Prop :=
  ∃ m r : ℕ, (m : ℤ) = ⌊s / 60⌋ ∧
    (r : ℤ) = roundHalfEven (100 * (s - 60 * ⌊s / 60⌋)) ∧
    out = pad2 m ++ ":" ++ pad2 (r / 100) ++ "." ++ pad2 (r % 100) ∧
    (pad2 m).length = 2 ∧ (pad2 (r / 100)).length = 2 ∧
    (pad2 (r % 100)).length = 2

/-- A small concrete reference table used by concrete instantiations. -/
def root0 : XmlRoot :=
  ⟨[⟨"SCM", [⟨"Men", [⟨"50m Freestyle", some 60⟩,
                      ⟨"100m Freestyle", some 120⟩]⟩,
             ⟨"Women", [⟨"50m Freestyle", some 62⟩]⟩]⟩,
    ⟨"LCM", [⟨"Men", [⟨"50m Freestyle", some 61⟩]⟩]⟩]⟩

/-- A valid sample row. -/
def sampleRowOk : Row :=
  ⟨some "Ann", some "Lee", some "SCM", some "Men", some "50m Freestyle",
    some "30"⟩

/-- A sample row whose name is blank after trimming. -/
def sampleRowBlank : Row :=
  ⟨some "  ", some "Lee", some "SCM", some "Men", some "50m Freestyle",
    some "30"⟩

/-- A sample row with the `surname` field missing from the header. -/
def sampleRowNoSurname : Row :=
  ⟨some "Bo", none, some "SCM", some "Men", some "50m Freestyle", some "30"⟩


/-- Presence of all six CSV fields in a row. -/
def hasAllFields (r : Row) : Prop :=
  r.name.isSome = true ∧ r.surname.isSome = true ∧ r.course.isSome = true ∧
    r.gender.isSome = true ∧ r.stroke.isSome = true ∧ r.time.isSome = true

instance (r : Row) : Decidable (hasAllFields r) := by
  unfold hasAllFields
  infer_instance

/-- At least one of the six required CSV fields is absent from the row. -/
def missingField (r : Row) : Prop :=
  r.name = none ∨ r.surname = none ∨ r.course = none ∨ r.gender = none ∨
    r.stroke = none ∨ r.time = none

instance (r : Row) : Decidable (missingField r) := by
  unfold missingField
  infer_instance

/-- The rejection causes named by the spec for a row whose six fields are
all present: blank name or surname after trimming, unparseable time, or
base-time lookup not-found (rows with an absent field are also rejected, by
the catch-all branch). -/
def specRejected (root : XmlRoot) (r : Row) : Bool :=
  match r.name, r.surname, r.course, r.gender, r.stroke, r.time with
  | some name0, some surname0, some course, some gender, some stroke,
      some time =>
    (pyStrip name0 == "") || (pyStrip surname0 == "") ||
      (pyFloat time).isNone || (find_basetime root course gender stroke).isNone
  | _, _, _, _, _, _ => true

/-! ## Points formula (claims C1, C4, C8, C9) -/

/-- On a positive input time the clamp branch is not taken. -/
theorem calculate_points_of_pos (b t : ℚ) (ht : 0 < t) :
    calculate_points b t = 1000 * (b / t) ^ 3 := by
  unfold calculate_points
  rw [if_neg (not_le.mpr ht)]

/-- C1: for every `baseTime` `b` and every `inputTime` `t` with `t > 0`,
`calculate_points b t` equals `1000 * (b / t) ^ 3`. -/
theorem calculate_points_formula (b t : ℚ) (ht : 0 < t) :
    calculate_points b t = 1000 * (b / t) ^ 3 :=
  calculate_points_of_pos b t ht

/-- Witness for C1 at `b = 3`, `t = 2`. -/
theorem calculate_points_formula_witness :
    calculate_points 3 2 = 1000 * ((3 : ℚ) / 2) ^ 3 :=
  calculate_points_formula 3 2 (by norm_num)

/-- C4: for every `baseTime` `b` and every `inputTime` `t ≤ 0`,
`calculate_points b t` is exactly `0`, regardless of `b` (the totality of the
Lean function reflects that the Python code neither divides by zero nor
raises on this branch). -/
theorem calculate_points_nonpositive (b t : ℚ) (ht : t ≤ 0) :
    calculate_points b t = 0 := by
  unfold calculate_points
  rw [if_pos ht]

/-- Witness for C4 at `b = 7`, `t = -2`. -/
theorem calculate_points_nonpositive_witness :
    calculate_points 7 (-2) = 0 :=
  calculate_points_nonpositive 7 (-2) (by norm_num)

/-- C9: for every positive `b`, `calculate_points b b = 1000`. -/
theorem calculate_points_at_basetime (b : ℚ) (hb : 0 < b) :
    calculate_points b b = 1000 := by
  unfold calculate_points
  rw [if_neg (not_le.mpr hb), div_self (ne_of_gt hb)]
  norm_num

/-- Witness for C9 at `b = 3`. -/
theorem calculate_points_at_basetime_witness :
    calculate_points 3 3 = 1000 :=
  calculate_points_at_basetime 3 (by norm_num)

/-- C8: for every fixed positive `baseTime` `b`, `calculate_points b ·` is
strictly decreasing on positive input times, and the points exceed 1000
exactly when the input time is below the base time (no upper bound is
enforced). -/
theorem calculate_points_strict_anti (b : ℚ) (hb : 0 < b) :
    (∀ t1 t2 : ℚ, 0 < t1 → t1 < t2 →
        calculate_points b t2 < calculate_points b t1) ∧
    (∀ t : ℚ, 0 < t → (1000 < calculate_points b t ↔ t < b)) := by
  constructor
  · intro t1 t2 ht1 h12
    have ht2 : 0 < t2 := lt_trans ht1 h12
    rw [calculate_points_of_pos b t1 ht1, calculate_points_of_pos b t2 ht2]
    have hdiv : b / t2 < b / t1 := div_lt_div_of_pos_left hb ht1 h12
    have hpow : (b / t2) ^ 3 < (b / t1) ^ 3 :=
      pow_lt_pow_left₀ hdiv (le_of_lt (div_pos hb ht2)) (by norm_num)
    linarith
  · intro t ht
    rw [calculate_points_of_pos b t ht]
    have h3 : (1000 : ℚ) < 1000 * (b / t) ^ 3 ↔ 1 < (b / t) ^ 3 := by
      constructor <;> intro h <;> nlinarith
    rw [h3, one_lt_pow_iff_of_nonneg (le_of_lt (div_pos hb ht)) (by norm_num),
      one_lt_div ht]

/-- Witness for C8 at `b = 2`, comparing the times 1 and 2 and checking the
1000-point threshold at `t = 1`. -/
theorem calculate_points_strict_anti_witness :
    calculate_points 2 2 < calculate_points 2 1 ∧
      (1000 < calculate_points 2 1 ↔ (1 : ℚ) < 2) :=
  ⟨(calculate_points_strict_anti 2 (by norm_num)).1 1 2 (by norm_num)
      (by norm_num),
    (calculate_points_strict_anti 2 (by norm_num)).2 1 (by norm_num)⟩

/-! ## Time formatting edge cases (claim C6) -/

/-- C6: `format_time` returns the fixed literal `"00:00.00"` for every
negative input (without failing, as the Lean function is total), and
`format_time 0` also equals `"00:00.00"`. -/
theorem format_time_clamp :
    (∀ s : ℚ, s < 0 → format_time s = "00:00.00") ∧
      format_time 0 = "00:00.00" := by
  constructor
  · intro s hs
    unfold format_time
    rw [if_pos hs]
  · norm_num [format_time, fmt052, pad2, roundHalfEven]
    decide

/-- Witness for C6 at `s = -1`. -/
theorem format_time_clamp_witness : format_time (-1) = "00:00.00" :=
  format_time_clamp.1 (-1) (by norm_num)

/-! ## Time formatting, general shape (claim C5) -/

/-- Bounds for round-half-even: it lands on the floor or the ceiling. -/
theorem roundHalfEven_bounds (q : ℚ) :
    ⌊q⌋ ≤ roundHalfEven q ∧ roundHalfEven q ≤ ⌊q⌋ + 1 := by
  unfold roundHalfEven
  split_ifs <;> omega

/-- Two-digit zero-padded rendering really has two characters below 100. -/
theorem pad2_length (n : ℕ) (h : n < 100) : (pad2 n).length = 2 := by
  revert h
  revert n
  decide

/-- Counterexample to C5 as stated: at `s = 6000` (one hundred minutes) the
minutes field printed by `{minutes:02d}` is `"100"`, three characters wide,
so the output is not of the claimed two-digit-minutes `mm:ss.cc` shape. -/
theorem format_time_wide_minutes :
    format_time 6000 = "100:00.00" ∧ ¬ MMSSCC 6000 (format_time 6000) := by
  have h1 : format_time 6000 = "100:00.00" := by
    norm_num [format_time, fmt052, pad2, roundHalfEven]
    decide
  refine ⟨h1, ?_⟩
  rintro ⟨m, r, hm, hr, hout, hlm, _, _⟩
  have hm100 : m = 100 := by
    have : (m : ℤ) = 100 := by rw [hm]; norm_num
    exact_mod_cast this
  rw [hm100] at hlm
  have : (pad2 100).length = 3 := by decide
  omega

/-- C5, amended: for every non-negative `s` below 6000 seconds (minutes
below 100) the output of `format_time` is of the two-digit `mm:ss.cc` shape
with minutes `⌊s / 60⌋` and the seconds and centiseconds fields obtained by
rounding the remainder `s mod 60` to centiseconds; for larger `s` the
minutes field widens beyond two digits. In particular
`format_time 65.5 = "01:05.50"` and `format_time 23.4 = "00:23.40"`. -/
theorem format_time_shape :
    (∀ s : ℚ, 0 ≤ s → s < 6000 → MMSSCC s (format_time s)) ∧
      format_time (131/2) = "01:05.50" ∧ format_time (117/5) = "00:23.40" := by
  refine ⟨?_, by norm_num [format_time, fmt052, pad2, roundHalfEven]; decide,
    by norm_num [format_time, fmt052, pad2, roundHalfEven]; decide⟩
  intro s h0 h6
  have hfl0 : (0 : ℤ) ≤ ⌊s / 60⌋ := Int.floor_nonneg.mpr (by positivity)
  have hfllt : ⌊s / 60⌋ < 100 := by
    rw [Int.floor_lt]
    push_cast
    linarith
  have hrem0 : 0 ≤ s - 60 * ⌊s / 60⌋ := by
    have := Int.floor_le (s / 60)
    nlinarith
  have hremlt : s - 60 * ⌊s / 60⌋ < 60 := by
    have := Int.lt_floor_add_one (s / 60)
    nlinarith
  have hr0 : (0 : ℤ) ≤ roundHalfEven (100 * (s - 60 * ⌊s / 60⌋)) := by
    have hb := (roundHalfEven_bounds (100 * (s - 60 * ⌊s / 60⌋))).1
    have : (0 : ℤ) ≤ ⌊100 * (s - 60 * ⌊s / 60⌋)⌋ :=
      Int.floor_nonneg.mpr (by positivity)
    omega
  have hrle : roundHalfEven (100 * (s - 60 * ⌊s / 60⌋)) ≤ 6000 := by
    have hb := (roundHalfEven_bounds (100 * (s - 60 * ⌊s / 60⌋))).2
    have : ⌊100 * (s - 60 * ⌊s / 60⌋)⌋ < 6000 := by
      rw [Int.floor_lt]
      push_cast
      nlinarith
    omega
  refine ⟨(⌊s / 60⌋).toNat, (roundHalfEven (100 * (s - 60 * ⌊s / 60⌋))).toNat,
    Int.toNat_of_nonneg hfl0, Int.toNat_of_nonneg hr0, ?_, ?_, ?_, ?_⟩
  · unfold format_time
    rw [if_neg (not_lt.mpr h0)]
    simp [fmt052, String.append_assoc]
  · exact pad2_length _ (by omega)
  · exact pad2_length _ (by omega)
  · exact pad2_length _ (Nat.mod_lt _ (by norm_num))

/-- Witness for the amended C5 at `s = 65.5`. -/
theorem format_time_shape_witness :
    MMSSCC (131/2) (format_time (131/2)) :=
  format_time_shape.1 (131/2) (by norm_num) (by norm_num)


/-! ## Reference-table lookup (claims C2, C7) -/

theorem char_toNat_ofNat (n : ℕ) (h : n.isValidChar) :
    (Char.ofNat n).toNat = n := by
  unfold Char.ofNat
  rw [dif_pos h]
  rfl

theorem toUpper_eq_self (c : Char) (h : ¬(97 ≤ c.toNat ∧ c.toNat ≤ 122)) :
    c.toUpper = c := by
  unfold Char.toUpper
  rw [if_neg h]

theorem toUpper_toNat_of (c : Char) (h : 97 ≤ c.toNat ∧ c.toNat ≤ 122) :
    c.toUpper.toNat = c.toNat - 32 := by
  unfold Char.toUpper
  rw [if_pos h]
  exact char_toNat_ofNat _ (Or.inl (by omega))

theorem toUpper_idem (c : Char) : c.toUpper.toUpper = c.toUpper := by
  by_cases h : 97 ≤ c.toNat ∧ c.toNat ≤ 122
  · have h2 := toUpper_toNat_of c h
    apply toUpper_eq_self
    omega
  · rw [toUpper_eq_self c h]
    exact toUpper_eq_self c h

theorem toLower_eq_self (c : Char) (h : ¬(65 ≤ c.toNat ∧ c.toNat ≤ 90)) :
    c.toLower = c := by
  unfold Char.toLower
  rw [if_neg h]

theorem toLower_toNat_of (c : Char) (h : 65 ≤ c.toNat ∧ c.toNat ≤ 90) :
    c.toLower.toNat = c.toNat + 32 := by
  unfold Char.toLower
  rw [if_pos h]
  exact char_toNat_ofNat _ (Or.inl (by omega))

theorem toLower_idem (c : Char) : c.toLower.toLower = c.toLower := by
  by_cases h : 65 ≤ c.toNat ∧ c.toNat ≤ 90
  · have h2 := toLower_toNat_of c h
    apply toLower_eq_self
    omega
  · rw [toLower_eq_self c h]
    exact toLower_eq_self c h

theorem toUpper_comp_idem : Char.toUpper ∘ Char.toUpper = Char.toUpper :=
  funext toUpper_idem

theorem toLower_comp_idem : Char.toLower ∘ Char.toLower = Char.toLower :=
  funext toLower_idem

theorem pyUpper_idem (s : String) : pyUpper (pyUpper s) = pyUpper s := by
  unfold pyUpper
  simp [List.map_map, toUpper_comp_idem]

theorem pyCapitalize_idem (s : String) :
    pyCapitalize (pyCapitalize s) = pyCapitalize s := by
  unfold pyCapitalize
  match s.data with
  | [] => rfl
  | c :: cs =>
    simp [toUpper_idem, List.map_map, toLower_comp_idem]

theorem find_basetime_eq_lookupMatches (root : XmlRoot) (course gender stroke : String) :
    find_basetime root course gender stroke =
      match lookupMatches root course gender stroke with
      | [] => none
      | e :: _ => e.basetime_seconds := rfl


theorem mem_lookupMatches {root : XmlRoot} {course gender stroke : String}
    {e : Event} :
    e ∈ lookupMatches root course gender stroke ↔
      (pyUpper course, pyCapitalize gender, e) ∈ allEvents root ∧
        e.stroke = stroke := by
  simp only [lookupMatches, allEvents, List.mem_flatMap, List.mem_filter,
    List.mem_map, decide_eq_true_eq, Prod.mk.injEq]
  constructor
  · rintro ⟨c, ⟨hc, hct⟩, g, ⟨hg, hgn⟩, he, hes⟩
    exact ⟨⟨c, hc, g, hg, e, he, hct, hgn, rfl⟩, hes⟩
  · rintro ⟨⟨c, hc, g, hg, e2, he2, hct, hgn, he⟩, hes⟩
    subst he
    exact ⟨c, ⟨hc, hct⟩, g, ⟨hg, hgn⟩, he2, hes⟩

theorem mem_entries {root : XmlRoot} {K1 K2 K3 : String} {v : ℚ} :
    (K1, K2, K3, v) ∈ entries root ↔
      ∃ e : Event, (K1, K2, e) ∈ allEvents root ∧ e.stroke = K3 ∧
        e.basetime_seconds = some v := by
  simp only [entries, List.mem_filterMap, Option.map_eq_some', Prod.mk.injEq]
  constructor
  · rintro ⟨⟨t1, t2, te⟩, ht, w, hw, h1, h2, h3, h4⟩
    subst h1
    subst h2
    subst h3
    subst h4
    exact ⟨te, ht, rfl, hw⟩
  · rintro ⟨e, he, hs, hb⟩
    exact ⟨(K1, K2, e), he, v, hb, rfl, rfl, hs, rfl⟩

/-- C2: over a well-formed table queried with normalized course and gender
strings, `find_basetime` returns exactly the value of a present `(course,
gender, stroke)` entry, and returns `none` (not-found, never an error: the
function is total) for an absent triple. -/
theorem find_basetime_lookup (root : XmlRoot) (course gender stroke : String)
    (hwf : WellFormed root) (hc : pyUpper course = course)
    (hg : pyCapitalize gender = gender) :
    (∀ v : ℚ, (course, gender, stroke, v) ∈ entries root →
        find_basetime root course gender stroke = some v) ∧
    ((¬ ∃ v : ℚ, (course, gender, stroke, v) ∈ entries root) →
        find_basetime root course gender stroke = none) := by
  have hinj := List.inj_on_of_nodup_map (f := fun t : String × String × Event =>
    (t.1, t.2.1, t.2.2.stroke)) (l := allEvents root) hwf.1
  constructor
  · intro v hv
    obtain ⟨e, he, hs, hb⟩ := mem_entries.mp hv
    have hmem : e ∈ lookupMatches root course gender stroke :=
      mem_lookupMatches.mpr ⟨by rw [hc, hg]; exact he, hs⟩
    rw [find_basetime_eq_lookupMatches]
    cases hms : lookupMatches root course gender stroke with
    | nil => rw [hms] at hmem; cases hmem
    | cons e0 rest =>
      have hmem0 : e0 ∈ lookupMatches root course gender stroke := by
        rw [hms]; exact List.mem_cons_self e0 rest
      obtain ⟨he0, hs0⟩ := mem_lookupMatches.mp hmem0
      rw [hc, hg] at he0
      have : (course, gender, e0) = (course, gender, e) := by
        apply hinj he0 he
        simp [hs0, hs]
      have he0e : e0 = e := by
        simpa using this
      simp [he0e, hb]
  · intro habs
    rw [find_basetime_eq_lookupMatches]
    cases hms : lookupMatches root course gender stroke with
    | nil => simp
    | cons e0 rest =>
      exfalso
      have hmem0 : e0 ∈ lookupMatches root course gender stroke := by
        rw [hms]; exact List.mem_cons_self e0 rest
      obtain ⟨he0, hs0⟩ := mem_lookupMatches.mp hmem0
      rw [hc, hg] at he0
      have hsome := hwf.2 _ he0
      obtain ⟨v, hv⟩ := Option.isSome_iff_exists.mp hsome
      exact habs ⟨v, mem_entries.mpr ⟨e0, he0, hs0, hv⟩⟩

/-- Witness for C2: in the concrete table `root0`, the present triple
`(SCM, Men, 50m Freestyle)` resolves to its stored base time. -/
theorem find_basetime_lookup_witness :
    find_basetime root0 "SCM" "Men" "50m Freestyle" = some 60 :=
  (find_basetime_lookup root0 "SCM" "Men" "50m Freestyle"
      ⟨by decide, by decide⟩ (by decide) (by decide)).1 60
    (by simp [entries, allEvents, root0])

/-- C7: lookups normalize course (uppercased) and gender (capitalized) —
querying with any casing equals querying with the normalized strings — while
the stroke is matched verbatim: in the concrete table `root0` the stored
stroke `"50m Freestyle"` is found but the differently-cased
`"50M FREESTYLE"` is not. -/
theorem find_basetime_normalizes :
    (∀ (root : XmlRoot) (course gender stroke : String),
        find_basetime root course gender stroke =
          find_basetime root (pyUpper course) (pyCapitalize gender) stroke) ∧
      find_basetime root0 "SCM" "Men" "50m Freestyle" = some 60 ∧
      find_basetime root0 "SCM" "Men" "50M FREESTYLE" = none := by
  refine ⟨?_, ?_, ?_⟩
  · intro root course gender stroke
    unfold find_basetime
    rw [pyUpper_idem, pyCapitalize_idem]
  · simp [find_basetime, root0, pyUpper, pyCapitalize]
  · simp [find_basetime, root0, pyUpper, pyCapitalize]


/-! ## Batch driver (claims C3, C10) -/

theorem batch_foldl_results (root : XmlRoot) :
    ∀ (rows : List Row) (n : ℕ) (acc : BatchOut),
      ((rows.enumFrom n).foldl (batch_step root) acc).results =
        acc.results ++ rows.filterMap (okResult root)
  | [], n, acc => by simp [List.enumFrom]
  | r :: rest, n, acc => by
    simp only [List.enumFrom, List.foldl]
    rw [batch_foldl_results root rest (n + 1)]
    cases hp : process_row root r with
    | ok res => simp [batch_step, hp, okResult, List.filterMap_cons]
    | error e => simp [batch_step, hp, okResult, List.filterMap_cons]

theorem batch_foldl_total (root : XmlRoot) :
    ∀ (rows : List Row) (n : ℕ) (acc : BatchOut),
      ((rows.enumFrom n).foldl (batch_step root) acc).total =
        acc.total + ((rows.filterMap (okResult root)).map
          ScoredResult.points).sum
  | [], n, acc => by simp [List.enumFrom]
  | r :: rest, n, acc => by
    simp only [List.enumFrom, List.foldl]
    rw [batch_foldl_total root rest (n + 1)]
    cases hp : process_row root r with
    | ok res =>
      simp [batch_step, hp, okResult, List.filterMap_cons]
      ring
    | error e => simp [batch_step, hp, okResult, List.filterMap_cons]

theorem batch_foldl_failed (root : XmlRoot) :
    ∀ (rows : List Row) (n : ℕ) (acc : BatchOut),
      ((rows.enumFrom n).foldl (batch_step root) acc).failed =
        acc.failed ++ (rows.enumFrom n).filterMap (failEntry root)
  | [], n, acc => by simp [List.enumFrom]
  | r :: rest, n, acc => by
    simp only [List.enumFrom, List.foldl]
    rw [batch_foldl_failed root rest (n + 1)]
    cases hp : process_row root r with
    | ok res => simp [batch_step, hp, failEntry, List.filterMap_cons]
    | error e => simp [batch_step, hp, failEntry, List.filterMap_cons]

theorem process_row_ok_hasAllFields {root : XmlRoot} {r : Row}
    {res : ScoredResult} (h : process_row root r = .ok res) :
    hasAllFields r := by
  unfold process_row at h
  cases hn : r.name with
  | none => rw [hn] at h; exact absurd h (by simp)
  | some name0 =>
  rw [hn] at h
  cases hs : r.surname with
  | none => rw [hs] at h; exact absurd h (by simp)
  | some surname0 =>
  rw [hs] at h
  cases hc2 : r.course with
  | none => rw [hc2] at h; exact absurd h (by simp)
  | some course =>
  rw [hc2] at h
  cases hg2 : r.gender with
  | none => rw [hg2] at h; exact absurd h (by simp)
  | some gender =>
  rw [hg2] at h
  cases hst2 : r.stroke with
  | none => rw [hst2] at h; exact absurd h (by simp)
  | some stroke =>
  rw [hst2] at h
  cases hti2 : r.time with
  | none => rw [hti2] at h; exact absurd h (by simp)
  | some timeStr =>
  exact ⟨by simp [hn], by simp [hs], by simp [hc2], by simp [hg2],
    by simp [hst2], by simp [hti2]⟩

theorem okResult_isSome_iff {root : XmlRoot} {r : Row}
    (hf : hasAllFields r) :
    (okResult root r).isSome = !(specRejected root r) := by
  obtain ⟨h1, h2, h3, h4, h5, h6⟩ := hf
  obtain ⟨name0, hn⟩ := Option.isSome_iff_exists.mp h1
  obtain ⟨surname0, hsn⟩ := Option.isSome_iff_exists.mp h2
  obtain ⟨course, hco⟩ := Option.isSome_iff_exists.mp h3
  obtain ⟨gender, hge⟩ := Option.isSome_iff_exists.mp h4
  obtain ⟨stroke, hst⟩ := Option.isSome_iff_exists.mp h5
  obtain ⟨time, hti⟩ := Option.isSome_iff_exists.mp h6
  simp only [okResult, process_row, specRejected, hn, hsn, hco, hge, hst, hti]
  cases hf2 : pyFloat time with
  | none => simp
  | some t =>
    by_cases he : pyStrip name0 = "" ∨ pyStrip surname0 = ""
    · rcases he with he | he <;> simp [he]
    · push_neg at he
      cases hfb : find_basetime root course gender stroke with
      | none => simp [hfb, he.1, he.2]
      | some b => simp [hfb, he.1, he.2]

theorem failEntry_isSome (root : XmlRoot) (nr : ℕ × Row) :
    (failEntry root nr).isSome = !(okResult root nr.2).isSome := by
  unfold failEntry okResult
  cases process_row root nr.2 <;> simp

/-- C3: over rows that carry all six fields, the batch driver yields the
scored results of the accepted rows in input order, one rejection message
per rejected row in input order, the counts N-K and K where K counts the
rows rejected for the causes listed (blank name/surname after trimming,
unparseable time, or base-time lookup not-found), and a running total equal
to the sum of the scored results' points; no rejection aborts the batch
(the driver is a total function over all rows). -/
theorem batch_driver_partition (root : XmlRoot) (rows : List Row)
    (hfields : ∀ r ∈ rows, hasAllFields r) :
    (run_batch root rows).results = rows.filterMap (okResult root) ∧
    (run_batch root rows).failed =
        (rows.enumFrom 2).filterMap (failEntry root) ∧
    (run_batch root rows).results.length =
        rows.length - (rows.filter (specRejected root)).length ∧
    (run_batch root rows).failed.length =
        (rows.filter (specRejected root)).length ∧
    (run_batch root rows).total =
        ((run_batch root rows).results.map ScoredResult.points).sum := by
  have hres : (run_batch root rows).results = rows.filterMap (okResult root) := by
    unfold run_batch
    rw [batch_foldl_results]
    simp
  have hfail : (run_batch root rows).failed =
      (rows.enumFrom 2).filterMap (failEntry root) := by
    unfold run_batch
    rw [batch_foldl_failed]
    simp
  have htot : (run_batch root rows).total =
      ((rows.filterMap (okResult root)).map ScoredResult.points).sum := by
    unfold run_batch
    rw [batch_foldl_total]
    simp
  have hcount : (rows.filterMap (okResult root)).length =
      rows.countP (fun r => !(specRejected root r)) := by
    rw [List.length_filterMap_eq_countP]
    apply List.countP_congr
    intro r hr
    rw [okResult_isSome_iff (hfields r hr)]
  have hKlen : (rows.filter (specRejected root)).length =
      rows.countP (specRejected root) :=
    (List.countP_eq_length_filter _ _).symm
  have hsplit := List.length_eq_countP_add_countP (specRejected root) rows
  have hfailcount : ((rows.enumFrom 2).filterMap (failEntry root)).length =
      rows.countP (specRejected root) := by
    rw [List.length_filterMap_eq_countP]
    have hmapped : rows.countP (specRejected root) =
        ((rows.enumFrom 2).map Prod.snd).countP (specRejected root) := by
      rw [List.enumFrom_map_snd]
    rw [hmapped, List.countP_map]
    apply List.countP_congr
    intro nr hnr
    have hr : nr.2 ∈ rows := List.snd_mem_of_mem_enumFrom hnr
    rw [failEntry_isSome, okResult_isSome_iff (hfields nr.2 hr)]
    simp [Function.comp]
  refine ⟨hres, hfail, ?_, ?_, ?_⟩
  · rw [hres, hcount, hKlen]
    have : rows.countP (fun r => !(specRejected root r)) =
        rows.countP (fun a => ¬ (specRejected root) a) := by
      apply List.countP_congr
      intro r hr
      simp
    omega
  · rw [hfail, hfailcount, hKlen]
  · rw [htot, hres]

/-- Witness for C3 on a concrete batch: one accepted row and one row with a
blank name. -/
theorem batch_driver_partition_witness :
    (run_batch root0 [sampleRowOk, sampleRowBlank]).results.length =
        [sampleRowOk, sampleRowBlank].length -
          ([sampleRowOk, sampleRowBlank].filter (specRejected root0)).length ∧
    (run_batch root0 [sampleRowOk, sampleRowBlank]).failed.length =
        ([sampleRowOk, sampleRowBlank].filter (specRejected root0)).length :=
  ⟨(batch_driver_partition root0 [sampleRowOk, sampleRowBlank]
      (by decide)).2.2.1,
    (batch_driver_partition root0 [sampleRowOk, sampleRowBlank]
      (by decide)).2.2.2.1⟩

/-- C10: a row with a missing required field is rejected with a message
carrying its row number (index + 2, accounting for the header line),
processing continues, and the row contributes to neither the scored results
nor the running total. -/
theorem batch_driver_missing_field (root : XmlRoot) (rows : List Row) (i : ℕ)
    (hi : i < rows.length) (hm : missingField rows[i]) :
    (∃ msg : String,
        ("Row " ++ toString (i + 2) ++ ": Invalid data - " ++ msg) ∈
          (run_batch root rows).failed) ∧
    (run_batch root rows).results =
        (rows.eraseIdx i).filterMap (okResult root) ∧
    (run_batch root rows).total =
        (((rows.eraseIdx i).filterMap (okResult root)).map
          ScoredResult.points).sum := by
  have herr : ∃ e, process_row root rows[i] = .error e := by
    cases hp : process_row root rows[i] with
    | ok res =>
      exfalso
      have hf := process_row_ok_hasAllFields hp
      obtain ⟨f1, f2, f3, f4, f5, f6⟩ := hf
      rcases hm with h | h | h | h | h | h <;> simp [h] at f1 f2 f3 f4 f5 f6
    | error e => exact ⟨e, rfl⟩
  obtain ⟨e, he⟩ := herr
  have hnone : okResult root rows[i] = none := by simp [okResult, he]
  have hfm : rows.filterMap (okResult root) =
      (rows.eraseIdx i).filterMap (okResult root) := by
    conv_lhs =>
      rw [← List.take_append_drop i rows, List.drop_eq_getElem_cons hi]
    rw [List.eraseIdx_eq_take_drop_succ, List.filterMap_append,
      List.filterMap_append, List.filterMap_cons, hnone]
  have hres : (run_batch root rows).results = rows.filterMap (okResult root) := by
    unfold run_batch
    rw [batch_foldl_results]
    simp
  have htot : (run_batch root rows).total =
      ((rows.filterMap (okResult root)).map ScoredResult.points).sum := by
    unfold run_batch
    rw [batch_foldl_total]
    simp
  have hfail : (run_batch root rows).failed =
      (rows.enumFrom 2).filterMap (failEntry root) := by
    unfold run_batch
    rw [batch_foldl_failed]
    simp
  refine ⟨⟨e, ?_⟩, by rw [hres, hfm], by rw [htot, hfm]⟩
  rw [hfail]
  apply List.mem_filterMap.mpr
  refine ⟨(2 + i, rows[i]), ?_, ?_⟩
  · rw [List.mk_add_mem_enumFrom_iff_getElem?]
    exact List.getElem?_eq_getElem hi
  · have h2i : 2 + i = i + 2 := Nat.add_comm 2 i
    simp [failEntry, he, mk_fail, h2i]

/-- Witness for C10: the second data row (row number 4) lacks the `surname`
field. -/
theorem batch_driver_missing_field_witness :
    ∃ msg : String,
        ("Row " ++ toString (1 + 2) ++ ": Invalid data - " ++ msg) ∈
          (run_batch root0 [sampleRowOk, sampleRowNoSurname]).failed :=
  (batch_driver_missing_field root0 [sampleRowOk, sampleRowNoSurname] 1
      (by norm_num) (by decide)).1

end Brema
